import Mathlib

/-!
Shallow embedding of the consultation-request dispatch engine of the
cattle-health repository (backend/consultations/models.py and
backend/consultations/views.py), together with theorems settling the
frozen claims about it.

Modelling conventions:
* veterinarian / cattle / owner ids are `Nat` (the repository uses UUIDs;
  only equality of ids matters to the code under study);
* the JSON list fields `requested_veterinarians` and `declined_by` hold
  Python values that are either `str(uuid)` strings or raw `uuid.UUID`
  objects.  They are modelled by `PyVal`, and Python `==` / `in` between
  such values is modelled by `pyEq` (cross-type comparison of a UUID
  object with a string is `False` in Python);
* time is a `Nat` measured in hours (`timedelta(hours=h)` becomes `+ h`);
* the geodesic distance returned by the external `geopy` library for a
  given veterinarian and request location is carried as a field
  `distanceKm : ℚ` of the veterinarian record;
* Django ORM writes are modelled as pure state transformers; a
  `unique_together` violation on `INSERT` (an `IntegrityError`) is
  modelled by an explicit abort / error branch, as the surrounding
  `try/except` blocks of the views dictate.
-/

namespace Eyntra

/-- Dynamically-typed Python value stored in the JSON list fields
`requested_veterinarians` / `declined_by`: either the string `str(u)` of a
veterinarian UUID `u` (constructor `uuidStr`), or the raw `uuid.UUID`
object (constructor `uuidObj`). -/
inductive PyVal where
  | uuidStr (n : Nat)
  | uuidObj (n : Nat)
deriving DecidableEq, Repr

/-- Python `==` between two such values: equal strings compare equal,
equal UUID objects compare equal, and a string never equals a UUID object
(Python falls back to identity-based inequality across types). -/
def pyEq : PyVal → PyVal → Bool
  | .uuidStr a, .uuidStr b => a == b
  | .uuidObj a, .uuidObj b => a == b
  | _, _ => false

/-- Python `x in xs` over a JSON list: any element of `xs` compares
`pyEq`-equal to `x`. -/
def pyMem (x : PyVal) (xs : List PyVal) : Bool :=
  xs.any (fun y => pyEq x y)

/-- `uuid.UUID(s)` applied to an entry of `requested_veterinarians`
recovers the underlying id (the entries are produced by `str(uuid)`). -/
def pyParseUUID : PyVal → Nat
  | .uuidStr n => n
  | .uuidObj n => n

/-- The `ConsultationRequest` row (models.py lines 529-602): status,
priority, the JSON id lists, the nullable assignment and the
timestamps that the claims mention. -/
structure ConsultationRequest where
  id : Nat
  status : String
  priority : String
  requested_veterinarians : List PyVal
  declined_by : List PyVal
  assigned_veterinarian : Option Nat
  created_at : Nat
  expires_at : Nat
  accepted_at : Option Nat
deriving DecidableEq, Repr

/-- `ConsultationRequest.is_expired` (models.py lines 607-609):
`timezone.now() > self.expires_at`. -/
def is_expired (now : Nat) (cr : ConsultationRequest) : Bool :=
  cr.expires_at < now

/-- The guard of `accept_by_veterinarian` (models.py line 613):
`self.status == 'pending' and not self.is_expired()`.  This read of
`status` is a separate step from the subsequent `save()`. -/
def acceptCheck (now : Nat) (cr : ConsultationRequest) : Bool :=
  cr.status == "pending" && !(is_expired now cr)

/-- The mutating body of `accept_by_veterinarian` (models.py lines
614-617): set `status = 'accepted'`, `assigned_veterinarian = vet`,
`accepted_at = now` and save. -/
def acceptWrite (now vet : Nat) (cr : ConsultationRequest) : ConsultationRequest :=
  { cr with
      status := "accepted"
      assigned_veterinarian := some vet
      accepted_at := some now }

/-- `ConsultationRequest.accept_by_veterinarian` (models.py lines
611-619), run as one atomic step: check, then write, returning whether
the acceptance happened. -/
def accept_by_veterinarian (now vet : Nat) (cr : ConsultationRequest) :
    Bool × ConsultationRequest :=
  if acceptCheck now cr then (true, acceptWrite now vet cr) else (false, cr)

/-- `ConsultationRequest.decline_by_veterinarian` (models.py lines
621-629).  The guard is `self.status == 'pending' and veterinarian.id
not in self.declined_by`: the raw UUID object `veterinarian.id` is
compared against the `str(uuid)` entries of `declined_by`, while the
value appended is `str(veterinarian.id)`. -/
def decline_by_veterinarian (vet : Nat) (cr : ConsultationRequest) :
    Bool × ConsultationRequest :=
  if cr.status == "pending" && !(pyMem (.uuidObj vet) cr.declined_by) then
    (true, { cr with declined_by := cr.declined_by ++ [.uuidStr vet] })
  else
    (false, cr)

/-- Two veterinarians `vetA` and `vetB` both run
`accept_by_veterinarian` on the same request under the interleaving in
which both guard reads (models.py line 613, each a separate `SELECT`
from the `save()` that follows) happen before either `save()` (models.py
line 617).  There is no lock, transaction or conditional `UPDATE` in the
source, so this schedule is possible. -/
def acceptRaceBothRead (now vetA vetB : Nat) (cr : ConsultationRequest) :
    Bool × Bool × ConsultationRequest :=
  let gA := acceptCheck now cr
  let gB := acceptCheck now cr
  let cr1 := if gA then acceptWrite now vetA cr else cr
  let cr2 := if gB then acceptWrite now vetB cr1 else cr1
  (gA, gB, cr2)

/-- One row of the veterinarian directory as the fan-out query sees it
(`VeterinarianProfile`, models.py lines 12-140): the owning user id, the
`is_verified` / `is_available` / `is_emergency_available` flags, whether
both coordinates are present (views.py line 623), and the geodesic
distance in km between the request location and the veterinarian
location as computed by the external `geopy` call (views.py line 625). -/
structure Vet where
  userId : Nat
  is_verified : Bool
  is_available : Bool
  is_emergency_available : Bool
  hasCoords : Bool
  distanceKm : ℚ
deriving DecidableEq, Repr

/-- Ids already notified, as the code reads them back:
`uuid.UUID(vet_id) for vet_id in requested_veterinarians` (views.py
line 611). -/
def notifiedIds (cr : ConsultationRequest) : List Nat :=
  cr.requested_veterinarians.map pyParseUUID

/-- The filtered veterinarian queryset of
`notify_nearby_veterinarians_for_consultation` (views.py lines 594-612):
verified, emergency-available for emergency priority and available
otherwise, and not already in `requested_veterinarians`. -/
def vetsQuery (cr : ConsultationRequest) (vets : List Vet) : List Vet :=
  vets.filter fun v =>
    v.is_verified &&
      (if cr.priority == "emergency" then v.is_emergency_available
       else v.is_available) &&
      !((notifiedIds cr).contains v.userId)

/-- Channels for one notification (views.py lines 629-631): `['app']`,
extended with sms and email for emergency priority. -/
def channelsFor (priority : String) : List String :=
  if priority == "emergency" then ["app", "sms", "email"] else ["app"]

/-- One `VeterinarianNotificationRequest` row (models.py lines 678-734);
`unique_together ['veterinarian', 'consultation_request']`. -/
structure NotificationRecord where
  veterinarian : Nat
  requestId : Nat
  channels : List String
  distance_km : ℚ
  status : String
deriving DecidableEq, Repr

/-- Whether a notification record for the pair `(vet, reqId)` exists. -/
def hasNotifRecord (notifs : List NotificationRecord) (vet reqId : Nat) : Bool :=
  notifs.any fun nr => nr.veterinarian == vet && nr.requestId == reqId

/-- Accumulator of one radius pass of the fan-out loop: the notification
rows in the store, the `notified_vets` list built so far, and whether an
`IntegrityError` aborted the surrounding `try` block. -/
structure PassState where
  notifs : List NotificationRecord
  notified : List Nat
  aborted : Bool
deriving DecidableEq, Repr

/-- The `VeterinarianNotificationRequest` row inserted for one candidate
(views.py lines 633-638). -/
def mkRecord (cr : ConsultationRequest) (v : Vet) : NotificationRecord :=
  { veterinarian := v.userId, requestId := cr.id,
    channels := channelsFor cr.priority,
    distance_km := v.distanceKm, status := "sent" }

/-- The inner loop of `notify_nearby_veterinarians_for_consultation` for
one radius (views.py lines 622-639): for each veterinarian of the
queryset with coordinates and `distance <= radius`, insert a
`VeterinarianNotificationRequest` row and append the id to
`notified_vets`.  The insert violates the table's `unique_together`
constraint when a row for the same pair already exists; the resulting
`IntegrityError` aborts the whole function (rows inserted before it
persist, Django runs in autocommit here). -/
def notifyPass (cr : ConsultationRequest) (radius : ℚ) :
    List Vet → PassState → PassState
  | [], s => s
  | v :: rest, s =>
    if s.aborted then s
    else if v.hasCoords && decide (v.distanceKm ≤ radius) then
      if hasNotifRecord s.notifs v.userId cr.id then
        { s with aborted := true }
      else
        notifyPass cr radius rest
          { s with
              notifs := s.notifs ++ [mkRecord cr v]
              notified := s.notified ++ [v.userId] }
    else
      notifyPass cr radius rest s

/-- `notify_nearby_veterinarians_for_consultation` (views.py lines
581-645).  Radii are `[50, 100]` normally and `[100, 200]` when
`expanded_radius` is set; the `break` at line 619 skips the second
radius when the first one found anyone and the call is not an expansion.
On the exception path the function returns `[]` (line 645) while the
rows inserted before the failure remain in the store.  Returns the final
notification rows and the returned `notified_vets` list. -/
def notifyNearby (cr : ConsultationRequest) (existing : List NotificationRecord)
    (vets : List Vet) (expanded : Bool) (hasLoc : Bool) :
    List NotificationRecord × List Nat :=
  if !hasLoc then (existing, [])
  else
    let q := vetsQuery cr vets
    let initialRadius : ℚ := if expanded then 100 else 50
    let maxRadius : ℚ := if expanded then 200 else 100
    let s1 := notifyPass cr initialRadius q ⟨existing, [], false⟩
    let s2 :=
      if s1.aborted then s1
      else if !s1.notified.isEmpty && !expanded then s1
      else notifyPass cr maxRadius q s1
    (s2.notifs, if s2.aborted then [] else s2.notified)

/-- The fields of a `SymptomReport` (models.py lines 460-526) that the
dispatch path reads: severity, the emergency flag, and whether the
location JSON has both coordinates (views.py line 585). -/
structure SymptomReport where
  cattleId : Nat
  ownerId : Nat
  severity : String
  is_emergency : Bool
  hasLocation : Bool
deriving DecidableEq, Repr

/-- The `ConsultationRequest` row as first inserted by
`create_consultation_request_from_symptom_report` (views.py lines
551-569): priority and expiry hours from the severity/emergency flags,
`status` defaulting to `'pending'`, empty id lists, no assignment. -/
def initialRequest (sr : SymptomReport) (reqId now : Nat) : ConsultationRequest :=
  let priority :=
    if sr.is_emergency then "emergency"
    else if sr.severity == "severe" then "urgent"
    else "normal"
  let expiresHours : Nat :=
    if sr.is_emergency then 2
    else if sr.severity == "severe" then 6
    else 24
  { id := reqId, status := "pending", priority := priority,
    requested_veterinarians := [], declined_by := [],
    assigned_veterinarian := none, created_at := now,
    expires_at := now + expiresHours, accepted_at := none }

/-- A `VeterinarianResponse` audit row (models.py lines 632-672);
`unique_together ['veterinarian', 'consultation_request']`. -/
structure VetResponse where
  veterinarian : Nat
  requestId : Nat
  action : String
deriving DecidableEq, Repr

/-- A `VeterinarianPatient` row (models.py lines 758-820);
`unique_together ['veterinarian', 'cattle']`, status defaulting to
`'active'`. -/
structure Patient where
  veterinarian : Nat
  cattle : Nat
  owner : Nat
  status : String
  requestId : Option Nat
deriving DecidableEq, Repr

/-- The store state around one consultation request: the request row,
its notification rows, the response audit rows, the patient ledger and
the owning symptom report's status. -/
structure State where
  request : ConsultationRequest
  cattleId : Nat
  ownerId : Nat
  notifications : List NotificationRecord
  responses : List VetResponse
  patients : List Patient
  symptomStatus : String
deriving DecidableEq, Repr

/-- `create_consultation_request_from_symptom_report` (views.py lines
547-578): insert the request, fan out (initial radii), then write the
returned ids into `requested_veterinarians` as `str(vet_id)` strings.
`patients0` is the pre-existing patient ledger. -/
def createConsultationRequest (sr : SymptomReport) (reqId now : Nat)
    (vets : List Vet) (patients0 : List Patient) : State :=
  let cr0 := initialRequest sr reqId now
  let nr := notifyNearby cr0 [] vets false sr.hasLocation
  let cr1 := { cr0 with requested_veterinarians := nr.2.map PyVal.uuidStr }
  { request := cr1, cattleId := sr.cattleId, ownerId := sr.ownerId,
    notifications := nr.1, responses := [], patients := patients0,
    symptomStatus := "notified" }

/-- `mark_as_responded` applied to the first notification row of the
responding veterinarian (views.py lines 740-748, models.py lines
751-755): only the first `.filter(...).first()` match has its status
updated. -/
def markFirstResponded (vet reqId : Nat) :
    List NotificationRecord → List NotificationRecord
  | [] => []
  | nr :: rest =>
    if nr.veterinarian == vet && nr.requestId == reqId then
      { nr with status := "responded" } :: rest
    else
      nr :: markFirstResponded vet reqId rest

/-- Whether a `VeterinarianResponse` row for `(vet, reqId)` exists (the
`unique_together` constraint makes a second insert fail). -/
def hasResponse (rs : List VetResponse) (vet reqId : Nat) : Bool :=
  rs.any fun r => r.veterinarian == vet && r.requestId == reqId

/-- `VeterinarianPatient.objects.get_or_create(veterinarian=..,
cattle=.., defaults={...})` (views.py lines 766-773): return the
existing row for the `(veterinarian, cattle)` key unchanged if there is
one, otherwise insert a fresh row with the model's default status
`'active'`. -/
def getOrCreatePatient (patients : List Patient) (vet cattle owner reqId : Nat) :
    List Patient :=
  if patients.any (fun p => p.veterinarian == vet && p.cattle == cattle) then
    patients
  else
    patients ++ [{ veterinarian := vet, cattle := cattle, owner := owner,
                   status := "active", requestId := some reqId }]

/-- Outcome of `respond_to_consultation_request` as seen by the caller. -/
inductive RespondResult where
  | notPending
  | expired
  | invalidAction
  | integrityError
  | acceptedOk
  | alreadyAccepted
  | recorded (action : String)
deriving DecidableEq, Repr

/-- Result of one `respond_to_consultation_request` call: the HTTP-level
outcome, the state afterwards, and whether the expanded-radius
escalation call was made. -/
structure RespondOut where
  result : RespondResult
  state : State
  escalated : Bool
deriving DecidableEq, Repr

/-- `respond_to_consultation_request` (views.py lines 699-877) for a
veterinarian caller: the pending and expiry guards (lines 716-728), the
action guard (line 733), marking the notification responded (line 748),
inserting the unique audit row (line 751, `IntegrityError` on a repeat
responder aborts the rest), then the accept / decline / request_info
branches (lines 760-866).  `vets` is the veterinarian directory used by
a possible escalation; `hasLoc` is whether the report location has
coordinates. -/
def respond (st : State) (vet : Nat) (action : String) (now : Nat)
    (vets : List Vet) (hasLoc : Bool) : RespondOut :=
  let cr := st.request
  if cr.status ≠ "pending" then ⟨.notPending, st, false⟩
  else if is_expired now cr then
    ⟨.expired, { st with request := { cr with status := "expired" } }, false⟩
  else if ¬ (action = "accept" ∨ action = "decline" ∨ action = "request_info") then
    ⟨.invalidAction, st, false⟩
  else
    let st1 := { st with
      notifications := markFirstResponded vet cr.id st.notifications }
    if hasResponse st1.responses vet cr.id then
      ⟨.integrityError, st1, false⟩
    else
      let st2 := { st1 with
        responses := st1.responses ++ [⟨vet, cr.id, action⟩] }
      if action = "accept" then
        if st2.request.status = "pending" then
          let res := accept_by_veterinarian now vet st2.request
          if res.1 then
            let st3 := { st2 with
              request := res.2
              patients := getOrCreatePatient st2.patients vet st2.cattleId
                st2.ownerId cr.id
              symptomStatus := "accepted" }
            ⟨.acceptedOk, st3, false⟩
          else
            ⟨.alreadyAccepted, { st2 with request := res.2 }, false⟩
        else ⟨.recorded action, st2, false⟩
      else if action = "decline" then
        let cr2 := (decline_by_veterinarian vet st2.request).2
        let st3 := { st2 with request := cr2 }
        if (cr2.declined_by.length : Int) ≥
            (cr2.requested_veterinarians.length : Int) - 1 then
          let nr := notifyNearby cr2 st3.notifications vets true hasLoc
          let st4 := { st3 with notifications := nr.1 }
          let st5 :=
            if nr.2.isEmpty then st4
            else { st4 with request := { cr2 with
              requested_veterinarians :=
                cr2.requested_veterinarians ++ nr.2.map PyVal.uuidStr } }
          ⟨.recorded action, st5, true⟩
        else ⟨.recorded action, st3, false⟩
      else
        ⟨.recorded action, st2, false⟩

/-- `expire_consultation_request` (views.py lines 1092-1128) for an
authorized caller (the owner or an admin): a pending request becomes
`'expired'`; any other status is rejected without change.  The view
does not consult `expires_at`. -/
def expireRequest (st : State) (authorized : Bool) : State :=
  if !authorized then st
  else if st.request.status = "pending" then
    { st with request := { st.request with status := "expired" } }
  else st

/-- One externally triggered operation on the request. -/
inductive Event where
  | respondEv (vet : Nat) (action : String) (now : Nat)
      (vets : List Vet) (hasLoc : Bool)
  | expireEv (authorized : Bool)

/-- Apply one event to the store. -/
def applyEvent (st : State) : Event → State
  | .respondEv vet action now vets hasLoc =>
      (respond st vet action now vets hasLoc).state
  | .expireEv authorized => expireRequest st authorized

/-- Run a sequence of events. -/
def runEvents (st : State) (es : List Event) : State :=
  es.foldl applyEvent st

/-- The assignment invariant of the spec:
`assigned_veterinarian != null ⟺ status == accepted`. -/
def AssignInv (cr : ConsultationRequest) : Prop :=
  cr.assigned_veterinarian ≠ none ↔ cr.status = "accepted"

/-- The subset invariant of the spec: `declined ⊆ notified`. -/
def declinedSubset (cr : ConsultationRequest) : Prop :=
  ∀ p ∈ cr.declined_by, p ∈ cr.requested_veterinarians

instance (cr : ConsultationRequest) : Decidable (declinedSubset cr) := by
  unfold declinedSubset
  infer_instance

/-- The `(veterinarian, consultation_request)` key of a notification
row, the key of its `unique_together` constraint. -/
def pairOf (nr : NotificationRecord) : Nat × Nat :=
  (nr.veterinarian, nr.requestId)

/-- The no-duplication invariant around escalation: the notified id list
has no duplicate veterinarian ids, and at most one notification row
exists per `(veterinarian, request)` pair. -/
def NoDupInv (st : State) : Prop :=
  (notifiedIds st.request).Nodup ∧ (st.notifications.map pairOf).Nodup

/-- The candidates of one radius pass: queryset rows with coordinates
within the radius (views.py lines 623-627). -/
def eligVets (r : ℚ) (q : List Vet) : List Vet :=
  q.filter fun v => v.hasCoords && decide (v.distanceKm ≤ r)

/-- Concrete fixture: a pending request with veterinarian 1 notified. -/
def exPendingRequest : ConsultationRequest :=
  { id := 0, status := "pending", priority := "normal",
    requested_veterinarians := [.uuidStr 1], declined_by := [],
    assigned_veterinarian := none, created_at := 0, expires_at := 24,
    accepted_at := none }

/-- Concrete fixture: veterinarian 1 has already responded once. -/
def exRespondedState : State :=
  { request := exPendingRequest, cattleId := 5, ownerId := 9,
    notifications := [], responses := [⟨1, 0, "request_info"⟩],
    patients := [], symptomStatus := "notified" }

/-- Concrete fixture: nobody has responded yet. -/
def exFreshState : State :=
  { request := exPendingRequest, cattleId := 5, ownerId := 9,
    notifications := [], responses := [], patients := [],
    symptomStatus := "notified" }

/-- Concrete fixture: veterinarian 1 already has a completed patient
record for the request's cattle. -/
def exCompletedPatientState : State :=
  { request := exPendingRequest, cattleId := 5, ownerId := 9,
    notifications := [], responses := [],
    patients := [⟨1, 5, 9, "completed", none⟩], symptomStatus := "notified" }

/-- Concrete fixture: an emergency report at a location with two
emergency-capable veterinarians at 70km and 90km. -/
def exEmergencyReport : SymptomReport := ⟨5, 9, "severe", true, true⟩

/-- Concrete fixture: verified emergency-capable veterinarian at 70km. -/
def exVetA : Vet := ⟨1, true, false, true, true, 70⟩

/-- Concrete fixture: verified emergency-capable veterinarian at 90km. -/
def exVetB : Vet := ⟨2, true, false, true, true, 90⟩

end Eyntra


namespace Eyntra

/-- Splitting `accept_by_veterinarian` into its guard read and its write
is faithful: run in isolation, the two steps compose to exactly the
atomic method. -/
theorem accept_by_veterinarian_eq_check_write (now vet : Nat)
    (cr : ConsultationRequest) :
    accept_by_veterinarian now vet cr =
      if acceptCheck now cr then (true, acceptWrite now vet cr)
      else (false, cr) := rfl

/-- Claim C1: at-most-one-winner — across concurrent Accept calls from
distinct veterinarians, exactly zero or one should succeed.  The source
uses an unguarded read-modify-write (a status check at views.py line 762
and models.py line 613, then a separate `save()` at line 617, with no
lock, transaction or conditional UPDATE), so under the
read-read-write-write interleaving both veterinarians observe
`status == 'pending'`, both writes run, and both calls report success;
sequentially the same two calls yield exactly one winner.  This refutes
the claim on the code at a concrete input. -/
theorem accept_race_two_winners :
    let cr : ConsultationRequest :=
      { id := 0, status := "pending", priority := "normal",
        requested_veterinarians := [.uuidStr 1, .uuidStr 2],
        declined_by := [], assigned_veterinarian := none,
        created_at := 0, expires_at := 24, accepted_at := none }
    let race := acceptRaceBothRead 1 1 2 cr
    race.1 = true ∧ race.2.1 = true ∧
      race.2.2.status = "accepted" ∧
      race.2.2.assigned_veterinarian = some 2 ∧
      (accept_by_veterinarian 1 1 cr).1 = true ∧
      (accept_by_veterinarian 1 2 (accept_by_veterinarian 1 1 cr).2).1 = false := by
  decide

/-- Claim C4: Decline is idempotent — calling `decline_by_veterinarian`
twice for the same veterinarian on the same pending request should yield
the same declined set as calling it once.  It does not: the membership
guard compares the UUID object against string entries, which is always
false in Python, so the second call appends a duplicate entry.  This
theorem evaluates the embedded method at the failing input. -/
theorem decline_by_veterinarian_not_idempotent :
    let cr : ConsultationRequest :=
      { id := 0, status := "pending", priority := "normal",
        requested_veterinarians := [.uuidStr 7], declined_by := [],
        assigned_veterinarian := none, created_at := 0, expires_at := 24,
        accepted_at := none }
    let once := (decline_by_veterinarian 7 cr).2
    let twice := (decline_by_veterinarian 7 once).2
    once.declined_by = [.uuidStr 7] ∧
      twice.declined_by = [.uuidStr 7, .uuidStr 7] ∧
      twice.declined_by ≠ once.declined_by := by
  decide

/-- Claim C5: priority is derived as emergency / urgent / normal from
the emergency flag and severity, and the request expires TTL hours after
creation with TTL 2 for emergency, 6 for urgent and 24 for normal. -/
theorem priority_ttl_mapping (sr : SymptomReport) (reqId now : Nat)
    (vets : List Vet) (p0 : List Patient) :
    let st := createConsultationRequest sr reqId now vets p0
    st.request.priority =
      (if sr.is_emergency then "emergency"
       else if sr.severity = "severe" then "urgent" else "normal") ∧
    st.request.expires_at = now +
      (if st.request.priority = "emergency" then 2
       else if st.request.priority = "urgent" then 6 else 24) := by
  by_cases he : sr.is_emergency <;> by_cases hs : sr.severity = "severe" <;>
    simp [createConsultationRequest, initialRequest, he, hs]

/-- `decline_by_veterinarian` never changes the status, the assignment
or the notified list. -/
lemma decline_by_fields (vet : Nat) (cr : ConsultationRequest) :
    ((decline_by_veterinarian vet cr).2).status = cr.status ∧
    ((decline_by_veterinarian vet cr).2).assigned_veterinarian =
      cr.assigned_veterinarian ∧
    ((decline_by_veterinarian vet cr).2).requested_veterinarians =
      cr.requested_veterinarians := by
  unfold decline_by_veterinarian
  split <;> simp

/-- One `respond_to_consultation_request` call either leaves the status
and the assignment unchanged, or expires a pending request, or accepts a
pending request assigning the caller. -/
lemma respond_request_effect (st : State) (vet : Nat) (action : String)
    (now : Nat) (vets : List Vet) (hasLoc : Bool) :
    (let cr' := (respond st vet action now vets hasLoc).state.request
    (cr'.status = st.request.status ∧
      cr'.assigned_veterinarian = st.request.assigned_veterinarian) ∨
    (st.request.status = "pending" ∧ cr'.status = "expired" ∧
      cr'.assigned_veterinarian = st.request.assigned_veterinarian) ∨
    (st.request.status = "pending" ∧ cr'.status = "accepted" ∧
      cr'.assigned_veterinarian = some vet)) := by
  by_cases h1 : st.request.status = "pending"
  · by_cases h2 : is_expired now st.request
    · simp [respond, h1, h2]
    · by_cases h3 : action = "accept" ∨ action = "decline" ∨ action = "request_info"
      · by_cases h4 : hasResponse st.responses vet st.request.id
        · simp [respond, h1, h2, h3, h4]
        · by_cases ha : action = "accept"
          · simp [respond, h1, h2, h3, h4, ha, accept_by_veterinarian,
              acceptCheck, acceptWrite]
          · by_cases hd : action = "decline"
            · obtain ⟨e1, e2, e3⟩ := decline_by_fields vet st.request
              simp only [respond, h1, h2, h3, h4, ha, hd]
              split_ifs <;> simp_all
            · have hi : action = "request_info" := by tauto
              simp [respond, h1, h2, h3, h4, ha, hd, hi]
      · simp [respond, h1, h2, h3]
  · simp [respond, h1]

/-- A responder call preserves the assignment invariant. -/
lemma respond_preserves_assignInv (st : State) (vet : Nat) (action : String)
    (now : Nat) (vets : List Vet) (hasLoc : Bool)
    (h : AssignInv st.request) :
    AssignInv (respond st vet action now vets hasLoc).state.request := by
  have he := respond_request_effect st vet action now vets hasLoc
  dsimp only at he
  unfold AssignInv at h ⊢
  rcases he with ⟨hs, ha⟩ | ⟨hp, hs, ha⟩ | ⟨hp, hs, ha⟩
  · rw [hs, ha]; exact h
  · rw [hs, ha]
    constructor
    · intro hne; exact absurd (hp.symm.trans (h.mp hne)) (by decide)
    · intro habs; exact absurd habs (by decide)
  · rw [hs, ha]; simp

/-- The manual-expiry view preserves the assignment invariant. -/
lemma expire_preserves_assignInv (st : State) (b : Bool)
    (h : AssignInv st.request) :
    AssignInv (expireRequest st b).request := by
  unfold expireRequest
  split_ifs with h1 h2
  · exact h
  · unfold AssignInv at h ⊢
    simp only
    constructor
    · intro hne; exact absurd (h2.symm.trans (h.mp hne)) (by decide)
    · intro habs; exact absurd habs (by decide)
  · exact h

/-- A state predicate preserved by every event is preserved by every
event sequence. -/
lemma runEvents_preserves {P : State → Prop}
    (hP : ∀ st e, P st → P (applyEvent st e)) :
    ∀ (es : List Event) (st : State), P st → P (runEvents st es) := by
  intro es
  induction es with
  | nil => intro st h; exact h
  | cons e es ih => intro st h; exact ih _ (hP st e h)

/-- No event changes the status or the assignment of a request in a
terminal state. -/
lemma applyEvent_terminal (st : State) (e : Event)
    (h : st.request.status = "accepted" ∨ st.request.status = "expired") :
    (applyEvent st e).request.status = st.request.status ∧
      (applyEvent st e).request.assigned_veterinarian =
        st.request.assigned_veterinarian := by
  have hnp : st.request.status ≠ "pending" := by
    rcases h with h | h <;> simp [h]
  cases e with
  | respondEv vet action now vets hasLoc => simp [applyEvent, respond, hnp]
  | expireEv b =>
    simp only [applyEvent]
    unfold expireRequest
    by_cases h1 : (!b) = true
    · simp [h1]
    · simp [h1, hnp]

/-- Claim C2: on every request reachable by a sequence of create,
accept, decline and expire operations, `assigned_veterinarian != null`
iff `status == 'accepted'`; and once a request is in a terminal state
(`'accepted'` or `'expired'`) no operation changes its status or its
assigned veterinarian. -/
theorem assignment_invariant_and_terminal_immutability
    (sr : SymptomReport) (reqId now : Nat) (vets : List Vet)
    (p0 : List Patient) (events : List Event) :
    AssignInv (runEvents (createConsultationRequest sr reqId now vets p0)
      events).request ∧
    ∀ st e, (st.request.status = "accepted" ∨ st.request.status = "expired") →
      ((applyEvent st e).request.status = st.request.status ∧
        (applyEvent st e).request.assigned_veterinarian =
          st.request.assigned_veterinarian) := by
  constructor
  · refine runEvents_preserves (P := fun st => AssignInv st.request)
      (fun st e h => ?_) events _ ?_
    · cases e with
      | respondEv vet action now2 vets2 hasLoc =>
        exact respond_preserves_assignInv st vet action now2 vets2 hasLoc h
      | expireEv b => exact expire_preserves_assignInv st b h
    · simp [AssignInv, createConsultationRequest, initialRequest]
  · exact fun st e h => applyEvent_terminal st e h

/-- Witness for the previous theorem at a concrete run: a request
created and then manually expired satisfies the invariant, and an
already-accepted request is unchanged by a further event. -/
theorem assignment_invariant_witness :
    (AssignInv (runEvents (createConsultationRequest
        ⟨5, 9, "mild", false, false⟩ 0 0 [] []) [.expireEv true]).request ∧
      ∀ st e, (st.request.status = "accepted" ∨ st.request.status = "expired") →
        ((applyEvent st e).request.status = st.request.status ∧
          (applyEvent st e).request.assigned_veterinarian =
            st.request.assigned_veterinarian)) :=
  assignment_invariant_and_terminal_immutability
    ⟨5, 9, "mild", false, false⟩ 0 0 [] [] [.expireEv true]

/-- Claim C3: a processed Decline triggers escalation (the
expanded-radius fan-out call of views.py lines 838-846) iff after the
decline the declined count is at least the notified count minus one —
while the request is pending (and unexpired, with a first-time
responder) — and no call ever escalates once the status is not
`'pending'`. -/
theorem escalation_trigger_iff (st : State) (vet now : Nat)
    (vets : List Vet) (hasLoc : Bool) :
    (let out := respond st vet "decline" now vets hasLoc
     let cr2 := (decline_by_veterinarian vet st.request).2
     out.escalated = true ↔
       (st.request.status = "pending" ∧ is_expired now st.request = false ∧
        hasResponse st.responses vet st.request.id = false ∧
        (cr2.declined_by.length : Int) ≥
          (cr2.requested_veterinarians.length : Int) - 1)) ∧
    ∀ action, st.request.status ≠ "pending" →
      (respond st vet action now vets hasLoc).escalated = false := by
  constructor
  · by_cases h1 : st.request.status = "pending"
    · by_cases h2 : is_expired now st.request
      · simp [respond, h1, h2]
      · by_cases h4 : hasResponse st.responses vet st.request.id
        · simp [respond, h1, h2, h4]
        · simp only [respond, h1, h2, h4]
          split_ifs <;> simp_all
    · simp [respond, h1]
  · intro action h
    simp [respond, h]

/-- Witness for the escalation-trigger theorem: with one notified
veterinarian a first decline escalates, while a veterinarian who has
already responded does not trigger escalation. -/
theorem escalation_trigger_witness :
    (respond exFreshState 1 "decline" 1 [] true).escalated = true ∧
    (respond exRespondedState 1 "decline" 1 [] true).escalated = false := by
  constructor
  · exact (escalation_trigger_iff exFreshState 1 1 [] true).1.mpr (by decide)
  · have h := (escalation_trigger_iff exRespondedState 1 1 [] true).1
    by_cases hb : (respond exRespondedState 1 "decline" 1 [] true).escalated = true
    · exact absurd ((h.mp hb).2.2.1) (by decide)
    · simpa using hb

/-- Claim C10: the `VeterinarianResponse` audit row is unique per
`(veterinarian, request)` and created before the action is handled, so
any second Respond by the same veterinarian fails with an error and
applies no accept and no decline: the declined list, the assignment and
the patient ledger are unchanged, and the status can change only by the
pending-to-expired guard. -/
theorem repeat_responder_rejected (st : State) (vet : Nat) (action : String)
    (now : Nat) (vets : List Vet) (hasLoc : Bool)
    (h : hasResponse st.responses vet st.request.id = true) :
    (let out := respond st vet action now vets hasLoc
     (∀ a, out.result ≠ .recorded a) ∧ out.result ≠ .acceptedOk ∧
     out.state.request.declined_by = st.request.declined_by ∧
     out.state.request.assigned_veterinarian = st.request.assigned_veterinarian ∧
     out.state.patients = st.patients ∧
     (out.state.request.status = st.request.status ∨
       (st.request.status = "pending" ∧ out.state.request.status = "expired"))) := by
  by_cases h1 : st.request.status = "pending"
  · by_cases h2 : is_expired now st.request
    · simp [respond, h1, h2]
    · by_cases h3 : action = "accept" ∨ action = "decline" ∨ action = "request_info"
      · simp [respond, h1, h2, h3, h]
      · simp [respond, h1, h2, h3]
  · simp [respond, h1]

/-- Witness for the repeat-responder theorem: veterinarian 1 responded
`request_info` earlier, and a follow-up accept is rejected with no
effect on the request. -/
theorem repeat_responder_witness :
    (let out := respond exRespondedState 1 "accept" 1 [] true
     (∀ a, out.result ≠ .recorded a) ∧ out.result ≠ .acceptedOk ∧
     out.state.request.declined_by = exRespondedState.request.declined_by ∧
     out.state.request.assigned_veterinarian =
       exRespondedState.request.assigned_veterinarian ∧
     out.state.patients = exRespondedState.patients ∧
     (out.state.request.status = exRespondedState.request.status ∨
       (exRespondedState.request.status = "pending" ∧
         out.state.request.status = "expired"))) :=
  repeat_responder_rejected exRespondedState 1 "accept" 1 [] true (by decide)

/-- Claim C9, counterexample to the reactivation half: a veterinarian
with an existing `'completed'` patient record for the cattle accepts a
new request; `get_or_create` returns the existing row unchanged, so the
record stays `'completed'` and is never reactivated to `'active'`. -/
theorem accept_keeps_completed_patient :
    (let out := respond exCompletedPatientState 1 "accept" 1 [] true
     out.result = .acceptedOk ∧
     out.state.patients = [⟨1, 5, 9, "completed", none⟩] ∧
     ∀ p ∈ out.state.patients, p.status ≠ "active") := by
  decide

/-- The `objects.any` key test of `get_or_create` as a proposition. -/
lemma patient_key_any (patients : List Patient) (vet cattle : Nat) :
    (patients.any fun p => p.veterinarian == vet && p.cattle == cattle) = true ↔
    ∃ p ∈ patients, p.veterinarian = vet ∧ p.cattle = cattle := by
  simp [List.any_eq_true]

/-- Claim C9 as amended: a successful accept performs get-or-create on
the `(veterinarian, cattle)` key — an existing record (whatever its
status, including `'completed'`) is returned unchanged, a missing one is
inserted fresh with status `'active'`, and no duplicate per key is ever
created. -/
theorem patient_get_or_create (st : State) (vet now : Nat)
    (vets : List Vet) (hasLoc : Bool)
    (h1 : st.request.status = "pending")
    (h2 : is_expired now st.request = false)
    (h4 : hasResponse st.responses vet st.request.id = false) :
    (let out := respond st vet "accept" now vets hasLoc
     out.result = .acceptedOk ∧
     ((∃ p ∈ st.patients, p.veterinarian = vet ∧ p.cattle = st.cattleId) →
        out.state.patients = st.patients) ∧
     ((¬ ∃ p ∈ st.patients, p.veterinarian = vet ∧ p.cattle = st.cattleId) →
        out.state.patients = st.patients ++
          [⟨vet, st.cattleId, st.ownerId, "active", some st.request.id⟩]) ∧
     ((st.patients.map fun p => (p.veterinarian, p.cattle)).Nodup →
        (out.state.patients.map fun p => (p.veterinarian, p.cattle)).Nodup)) := by
  have hred : (respond st vet "accept" now vets hasLoc).result = .acceptedOk ∧
      (respond st vet "accept" now vets hasLoc).state.patients =
        getOrCreatePatient st.patients vet st.cattleId st.ownerId st.request.id := by
    simp [respond, h1, h2, h4, accept_by_veterinarian, acceptCheck, acceptWrite]
  refine ⟨hred.1, ?_, ?_, ?_⟩
  · intro hex
    rw [hred.2]
    unfold getOrCreatePatient
    rw [if_pos ((patient_key_any st.patients vet st.cattleId).mpr hex)]
  · intro hex
    rw [hred.2]
    unfold getOrCreatePatient
    rw [if_neg]
    intro hc
    exact hex ((patient_key_any st.patients vet st.cattleId).mp hc)
  · intro hnd
    rw [hred.2]
    by_cases hex : ∃ p ∈ st.patients, p.veterinarian = vet ∧ p.cattle = st.cattleId
    · unfold getOrCreatePatient
      rw [if_pos ((patient_key_any st.patients vet st.cattleId).mpr hex)]
      exact hnd
    · unfold getOrCreatePatient
      rw [if_neg (fun hc => hex ((patient_key_any st.patients vet st.cattleId).mp hc))]
      rw [List.map_append]
      rw [List.nodup_append]
      refine ⟨hnd, by simp, ?_⟩
      intro a ha hb
      simp only [List.map_cons, List.map_nil, List.mem_singleton] at hb
      subst hb
      simp only [List.mem_map] at ha
      obtain ⟨p, hp, hkey⟩ := ha
      exact hex ⟨p, hp, by
        have h1k := congrArg Prod.fst hkey
        have h2k := congrArg Prod.snd hkey
        exact ⟨h1k, h2k⟩⟩

/-- Witness for the get-or-create theorem at a concrete input with an
existing completed record. -/
theorem patient_get_or_create_witness :
    (let out := respond exCompletedPatientState 1 "accept" 1 [] true
     out.result = .acceptedOk ∧
     ((∃ p ∈ exCompletedPatientState.patients, p.veterinarian = 1 ∧
         p.cattle = exCompletedPatientState.cattleId) →
        out.state.patients = exCompletedPatientState.patients) ∧
     ((¬ ∃ p ∈ exCompletedPatientState.patients, p.veterinarian = 1 ∧
         p.cattle = exCompletedPatientState.cattleId) →
        out.state.patients = exCompletedPatientState.patients ++
          [⟨1, exCompletedPatientState.cattleId, exCompletedPatientState.ownerId,
            "active", some exCompletedPatientState.request.id⟩]) ∧
     ((exCompletedPatientState.patients.map fun p =>
          (p.veterinarian, p.cattle)).Nodup →
        (out.state.patients.map fun p => (p.veterinarian, p.cattle)).Nodup)) :=
  patient_get_or_create exCompletedPatientState 1 1 [] true
    (by decide) (by decide) (by decide)

/-- Claim C7, counterexample: a request created with veterinarian 1
notified, then declined by veterinarian 2 who was never notified, ends
with `declined = [str(2)]` which is not a subset of
`notified = [str(1)]` — the respond view never checks that the caller
was notified. -/
theorem declined_not_subset_counterexample :
    (let st0 := createConsultationRequest ⟨5, 9, "mild", false, true⟩ 0 0
        [⟨1, true, true, false, true, 10⟩] []
     let st1 := runEvents st0 [.respondEv 2 "decline" 1 [] true]
     st0.request.requested_veterinarians = [.uuidStr 1] ∧
     st1.request.requested_veterinarians = [.uuidStr 1] ∧
     st1.request.declined_by = [.uuidStr 2] ∧
     ¬ declinedSubset st1.request) := by
  decide

/-- `decline_by_veterinarian` either leaves the declined list unchanged
or appends the caller's id string. -/
lemma decline_by_declined (vet : Nat) (cr : ConsultationRequest) :
    ((decline_by_veterinarian vet cr).2).declined_by = cr.declined_by ∨
    ((decline_by_veterinarian vet cr).2).declined_by =
      cr.declined_by ++ [.uuidStr vet] := by
  unfold decline_by_veterinarian
  split <;> simp

/-- After a decline by a notified veterinarian, every declined entry is
still a notified entry. -/
lemma declined_after_decline_mem (vet : Nat) (cr : ConsultationRequest)
    (hsub : declinedSubset cr)
    (hv : PyVal.uuidStr vet ∈ cr.requested_veterinarians) :
    ∀ p ∈ ((decline_by_veterinarian vet cr).2).declined_by,
      p ∈ cr.requested_veterinarians := by
  intro p hp
  rcases decline_by_declined vet cr with e | e <;> rw [e] at hp
  · exact hsub p hp
  · rcases List.mem_append.mp hp with h | h
    · exact hsub p h
    · rw [List.mem_singleton.mp h]
      exact hv

/-- The decline branch of `respond_to_consultation_request`, reduced
under the guards that let it run. -/
lemma respond_decline_eq (st : State) (vet now : Nat) (vets : List Vet)
    (hasLoc : Bool)
    (h1 : st.request.status = "pending")
    (h2 : is_expired now st.request = false)
    (h4 : hasResponse st.responses vet st.request.id = false) :
    respond st vet "decline" now vets hasLoc =
      (let st2 := { st with
         notifications := markFirstResponded vet st.request.id st.notifications
         responses := st.responses ++
           ([{ veterinarian := vet, requestId := st.request.id,
               action := "decline" }] : List VetResponse) }
       let cr2 := (decline_by_veterinarian vet st.request).2
       let st3 := { st2 with request := cr2 }
       if (cr2.declined_by.length : Int) ≥
           (cr2.requested_veterinarians.length : Int) - 1 then
         let nr := notifyNearby cr2 st3.notifications vets true hasLoc
         let st4 := { st3 with notifications := nr.1 }
         let st5 :=
           if nr.2.isEmpty then st4
           else { st4 with request := { cr2 with
             requested_veterinarians :=
               cr2.requested_veterinarians ++ nr.2.map PyVal.uuidStr } }
         ⟨.recorded "decline", st5, true⟩
       else ⟨.recorded "decline", st3, false⟩) := by
  simp [respond, h1, h2, h4]

/-- Claim C7 as amended: `declined` is a subset of `notified` at
creation and stays one across every operation provided each decline
comes from a notified veterinarian; the restriction is necessary because
the code lets any veterinarian decline any request (see the
counterexample). -/
theorem declined_subset_preservation
    (sr : SymptomReport) (reqId now : Nat) (vets : List Vet) (p0 : List Patient) :
    declinedSubset (createConsultationRequest sr reqId now vets p0).request ∧
    (∀ st vet action now2 vets2 hasLoc,
      declinedSubset st.request →
      (action = "decline" →
        PyVal.uuidStr vet ∈ st.request.requested_veterinarians) →
      declinedSubset (respond st vet action now2 vets2 hasLoc).state.request) ∧
    (∀ st b, declinedSubset st.request →
      declinedSubset (expireRequest st b).request) := by
  refine ⟨?_, ?_, ?_⟩
  · simp [createConsultationRequest, initialRequest, declinedSubset]
  · intro st vet action now2 vets2 hasLoc hsub hnote
    by_cases h1 : st.request.status = "pending"
    · by_cases h2 : is_expired now2 st.request
      · simpa [respond, h1, h2, declinedSubset] using hsub
      · by_cases h3 : action = "accept" ∨ action = "decline" ∨ action = "request_info"
        · by_cases h4 : hasResponse st.responses vet st.request.id
          · simpa [respond, h1, h2, h3, h4, declinedSubset] using hsub
          · by_cases ha : action = "accept"
            · simpa [respond, h1, h2, h3, h4, ha, accept_by_veterinarian,
                acceptCheck, acceptWrite, declinedSubset] using hsub
            · by_cases hd : action = "decline"
              · subst hd
                have h2f : is_expired now2 st.request = false := by
                  simpa using h2
                have h4f : hasResponse st.responses vet st.request.id = false := by
                  simpa using h4
                obtain ⟨e1, e2, e3⟩ := decline_by_fields vet st.request
                have hmem := declined_after_decline_mem vet st.request hsub (hnote rfl)
                rw [respond_decline_eq st vet now2 vets2 hasLoc h1 h2f h4f]
                dsimp only
                split_ifs with hc he
                · intro p hp
                  have hm : p ∈ (decline_by_veterinarian vet st.request).2.requested_veterinarians := by
                    rw [e3]
                    exact hmem p hp
                  exact hm
                · intro p hp
                  have hm : p ∈ (decline_by_veterinarian vet st.request).2.requested_veterinarians := by
                    rw [e3]
                    exact hmem p hp
                  exact List.mem_append_left _ hm
                · intro p hp
                  have hm : p ∈ (decline_by_veterinarian vet st.request).2.requested_veterinarians := by
                    rw [e3]
                    exact hmem p hp
                  exact hm
              · have hi : action = "request_info" := by tauto
                simpa [respond, h1, h2, h3, h4, ha, hd, hi, declinedSubset] using hsub
        · simpa [respond, h1, h2, h3, declinedSubset] using hsub
    · simpa [respond, h1, declinedSubset] using hsub
  · intro st b hsub
    unfold expireRequest
    split_ifs <;> simpa [declinedSubset] using hsub

/-- Witness for the subset-preservation theorem at concrete inputs. -/
theorem declined_subset_witness :
    declinedSubset (createConsultationRequest
      ⟨5, 9, "mild", false, false⟩ 0 0 [] []).request ∧
    declinedSubset (respond exFreshState 1 "decline" 1 [] true).state.request :=
  ⟨(declined_subset_preservation ⟨5, 9, "mild", false, false⟩ 0 0 [] []).1,
   (declined_subset_preservation ⟨5, 9, "mild", false, false⟩ 0 0 [] []).2.1
     exFreshState 1 "decline" 1 [] true (by decide) (fun _ => by decide)⟩


/-- Record-existence over an appended store. -/
lemma hasNotifRecord_append (l1 l2 : List NotificationRecord) (vet rid : Nat) :
    hasNotifRecord (l1 ++ l2) vet rid =
      (hasNotifRecord l1 vet rid || hasNotifRecord l2 vet rid) := by
  simp [hasNotifRecord, List.any_append]

/-- One radius pass over a queryset none of whose members has a
notification row yet and whose ids are distinct: it inserts exactly one
row per candidate within the radius and never aborts. -/
lemma notifyPass_fresh (cr : ConsultationRequest) (r : ℚ) :
    ∀ (q : List Vet) (s : PassState), s.aborted = false →
    (∀ v ∈ q, hasNotifRecord s.notifs v.userId cr.id = false) →
    (q.map Vet.userId).Nodup →
    notifyPass cr r q s =
      ⟨s.notifs ++ (eligVets r q).map (mkRecord cr),
       s.notified ++ (eligVets r q).map Vet.userId, false⟩ := by
  intro q
  induction q with
  | nil =>
    intro s hab _ _
    rw [notifyPass]
    cases s
    simp_all [eligVets]
  | cons v rest ih =>
    intro s hab hfresh hnd
    have hndrest : (rest.map Vet.userId).Nodup := by
      simpa using (List.nodup_cons.mp (by simpa using hnd)).2
    have hvnotin : v.userId ∉ rest.map Vet.userId := by
      have := (List.nodup_cons.mp
        (by simpa using hnd : (v.userId :: rest.map Vet.userId).Nodup)).1
      exact this
    rw [notifyPass]
    rw [if_neg (by simp [hab])]
    by_cases hc : (v.hasCoords && decide (v.distanceKm ≤ r)) = true
    · have hvfresh : hasNotifRecord s.notifs v.userId cr.id = false :=
        hfresh v (List.mem_cons_self v rest)
      rw [if_pos hc, if_neg (by simp [hvfresh])]
      have hfresh2 : ∀ w ∈ rest,
          hasNotifRecord (s.notifs ++ [mkRecord cr v]) w.userId cr.id = false := by
        intro w hw
        rw [hasNotifRecord_append]
        have h1 : hasNotifRecord s.notifs w.userId cr.id = false :=
          hfresh w (List.mem_cons_of_mem v hw)
        have h2 : hasNotifRecord [mkRecord cr v] w.userId cr.id = false := by
          simp [hasNotifRecord, mkRecord]
          intro heq
          exact absurd (heq ▸ List.mem_map_of_mem Vet.userId hw) hvnotin
        rw [h1, h2]
        rfl
      rw [hab]
      have hrec := ih ⟨s.notifs ++ [mkRecord cr v], s.notified ++ [v.userId], false⟩
        rfl hfresh2 hndrest
      rw [hrec]
      have helig : eligVets r (v :: rest) = v :: eligVets r rest := by
        simp [eligVets, List.filter_cons, hc]
      rw [helig]
      simp
    · rw [if_neg hc]
      rw [ih s hab (fun w hw => hfresh w (List.mem_cons_of_mem v hw)) hndrest]
      have helig : eligVets r (v :: rest) = eligVets r rest := by
        simp [eligVets, List.filter_cons, hc]
      rw [helig]

/-- Writing ids as `str(uuid)` strings and parsing them back is the
identity. -/
lemma parse_uuidStr_map (ids : List Nat) :
    (ids.map PyVal.uuidStr).map pyParseUUID = ids := by
  induction ids with
  | nil => rfl
  | cons a l ih => simp [pyParseUUID, ih]

/-- The queryset keeps the distinctness of the directory's user ids. -/
lemma vetsQuery_nodup_ids (cr : ConsultationRequest) (vets : List Vet)
    (h : (vets.map Vet.userId).Nodup) :
    ((vetsQuery cr vets).map Vet.userId).Nodup :=
  h.sublist ((List.filter_sublist vets).map Vet.userId)

/-- Claim C6: if zero veterinarians are eligible within the initial 50km
radius, CreateRequest escalates the search to 100km before returning —
the created request is pending, nobody has declined, and its notified
ids (and notification rows) are exactly the eligible veterinarians
within 100km. -/
theorem create_escalates_when_none_within_50
    (sr : SymptomReport) (reqId now : Nat) (vets : List Vet) (p0 : List Patient)
    (hloc : sr.hasLocation = true)
    (hnd : (vets.map Vet.userId).Nodup)
    (h50 : eligVets 50 (vetsQuery (initialRequest sr reqId now) vets) = []) :
    (let st := createConsultationRequest sr reqId now vets p0
     st.request.status = "pending" ∧
     st.request.declined_by = [] ∧
     notifiedIds st.request =
       (eligVets 100 (vetsQuery (initialRequest sr reqId now) vets)).map
         Vet.userId ∧
     st.notifications =
       (eligVets 100 (vetsQuery (initialRequest sr reqId now) vets)).map
         (mkRecord (initialRequest sr reqId now))) := by
  have hq := vetsQuery_nodup_ids (initialRequest sr reqId now) vets hnd
  have hfresh0 : ∀ v ∈ vetsQuery (initialRequest sr reqId now) vets,
      hasNotifRecord ([] : List NotificationRecord) v.userId
        (initialRequest sr reqId now).id = false := fun _ _ => rfl
  have hp1 := notifyPass_fresh (initialRequest sr reqId now) 50
    (vetsQuery (initialRequest sr reqId now) vets) ⟨[], [], false⟩ rfl hfresh0 hq
  rw [h50] at hp1
  simp only [List.map_nil, List.append_nil] at hp1
  have hp2 := notifyPass_fresh (initialRequest sr reqId now) 100
    (vetsQuery (initialRequest sr reqId now) vets) ⟨[], [], false⟩ rfl hfresh0 hq
  simp only [List.nil_append] at hp2
  have e1 : notifyNearby (initialRequest sr reqId now) [] vets false
      sr.hasLocation =
      ((eligVets 100 (vetsQuery (initialRequest sr reqId now) vets)).map
         (mkRecord (initialRequest sr reqId now)),
       (eligVets 100 (vetsQuery (initialRequest sr reqId now) vets)).map
         Vet.userId) := by
    rw [hloc]
    unfold notifyNearby
    simp [hp1, hp2]
  simp only [createConsultationRequest]
  rw [e1]
  dsimp only
  refine ⟨by simp [initialRequest], by simp [initialRequest], ?_, rfl⟩
  simp [notifiedIds, parse_uuidStr_map, pyParseUUID]

/-- Absence of a notification row, stated on the key pairs. -/
lemma hasNotifRecord_false_not_mem (notifs : List NotificationRecord)
    (vet rid : Nat) (h : hasNotifRecord notifs vet rid = false) :
    (vet, rid) ∉ notifs.map pairOf := by
  intro hmem
  obtain ⟨nr, hnr, hpair⟩ := List.mem_map.mp hmem
  have hpair2 : nr.veterinarian = vet ∧ nr.requestId = rid := by
    have := hpair
    simp [pairOf, Prod.ext_iff] at this
    exact this
  have htrue : hasNotifRecord notifs vet rid = true := by
    simp [hasNotifRecord, List.any_eq_true]
    exact ⟨nr, hnr, hpair2.1, hpair2.2⟩
  rw [h] at htrue
  cases htrue

/-- One radius pass preserves the uniqueness of notification-row keys
and of the accumulated notified ids, each notified id has its row, and
every newly notified id comes from the processed queryset. -/
lemma notifyPass_nodup (cr : ConsultationRequest) (r : ℚ) :
    ∀ (q : List Vet) (s : PassState),
    (s.notifs.map pairOf).Nodup →
    s.notified.Nodup →
    (∀ v ∈ s.notified, (v, cr.id) ∈ s.notifs.map pairOf) →
    (((notifyPass cr r q s).notifs.map pairOf).Nodup ∧
     (notifyPass cr r q s).notified.Nodup ∧
     (∀ v ∈ (notifyPass cr r q s).notified,
        (v, cr.id) ∈ (notifyPass cr r q s).notifs.map pairOf) ∧
     (∀ v ∈ (notifyPass cr r q s).notified,
        v ∈ s.notified ∨ v ∈ q.map Vet.userId)) := by
  intro q
  induction q with
  | nil =>
    intro s h1 h2 h3
    rw [notifyPass]
    exact ⟨h1, h2, h3, fun w hw => Or.inl hw⟩
  | cons v rest ih =>
    intro s h1 h2 h3
    rw [notifyPass]
    by_cases hab : s.aborted = true
    · rw [if_pos hab]
      exact ⟨h1, h2, h3, fun w hw => Or.inl hw⟩
    · rw [if_neg hab]
      by_cases hc : (v.hasCoords && decide (v.distanceKm ≤ r)) = true
      · rw [if_pos hc]
        by_cases hdup : hasNotifRecord s.notifs v.userId cr.id = true
        · rw [if_pos hdup]
          exact ⟨h1, h2, h3, fun w hw => Or.inl hw⟩
        · rw [if_neg hdup]
          have hdupf : hasNotifRecord s.notifs v.userId cr.id = false := by
            simpa using hdup
          have hnotmem : (v.userId, cr.id) ∉ s.notifs.map pairOf :=
            hasNotifRecord_false_not_mem _ _ _ hdupf
          have i1 : (((s.notifs ++ [mkRecord cr v]).map pairOf)).Nodup := by
            rw [List.map_append, List.nodup_append]
            refine ⟨h1, by simp, ?_⟩
            intro a ha hb
            have hb2 : a = (v.userId, cr.id) := by
              simpa [pairOf, mkRecord] using hb
            rw [hb2] at ha
            exact hnotmem ha
          have i2 : (s.notified ++ [v.userId]).Nodup := by
            rw [List.nodup_append]
            refine ⟨h2, by simp, ?_⟩
            intro a ha hb
            have hb2 : a = v.userId := by simpa using hb
            rw [hb2] at ha
            exact hnotmem (h3 _ ha)
          have i3 : ∀ w ∈ s.notified ++ [v.userId],
              (w, cr.id) ∈ (s.notifs ++ [mkRecord cr v]).map pairOf := by
            intro w hw
            rw [List.map_append]
            rcases List.mem_append.mp hw with h | h
            · exact List.mem_append_left _ (h3 _ h)
            · have hw2 : w = v.userId := by simpa using h
              rw [hw2]
              apply List.mem_append_right
              simp [pairOf, mkRecord]
          obtain ⟨j1, j2, j3, j4⟩ :=
            ih ⟨s.notifs ++ [mkRecord cr v], s.notified ++ [v.userId], s.aborted⟩
              i1 i2 i3
          refine ⟨j1, j2, j3, ?_⟩
          intro w hw
          rcases j4 w hw with h | h
          · rcases List.mem_append.mp h with h' | h'
            · exact Or.inl h'
            · have hw2 : w = v.userId := by simpa using h'
              rw [hw2, List.map_cons]
              exact Or.inr (List.mem_cons_self _ _)
          · rw [List.map_cons]
            exact Or.inr (List.mem_cons_of_mem _ h)
      · rw [if_neg hc]
        obtain ⟨j1, j2, j3, j4⟩ := ih s h1 h2 h3
        refine ⟨j1, j2, j3, fun w hw => ?_⟩
        rcases j4 w hw with h | h
        · exact Or.inl h
        · rw [List.map_cons]
          exact Or.inr (List.mem_cons_of_mem _ h)

/-- The whole fan-out preserves key uniqueness, returns a
duplicate-free id list, and only returns ids from its queryset. -/
lemma notifyNearby_nodup (cr : ConsultationRequest)
    (existing : List NotificationRecord) (vets : List Vet)
    (expanded : Bool) (hasLoc : Bool)
    (h : (existing.map pairOf).Nodup) :
    (((notifyNearby cr existing vets expanded hasLoc).1.map pairOf).Nodup ∧
     (notifyNearby cr existing vets expanded hasLoc).2.Nodup ∧
     ∀ v ∈ (notifyNearby cr existing vets expanded hasLoc).2,
       v ∈ (vetsQuery cr vets).map Vet.userId) := by
  unfold notifyNearby
  by_cases hl : (!hasLoc) = true
  · rw [if_pos hl]
    exact ⟨h, List.nodup_nil, by simp⟩
  · rw [if_neg hl]
    dsimp only
    obtain ⟨k1, k2, k3, k4⟩ := notifyPass_nodup cr
      (if expanded then (100 : ℚ) else 50) (vetsQuery cr vets)
      ⟨existing, [], false⟩ h List.nodup_nil (by simp)
    by_cases ha1 : (notifyPass cr (if expanded then (100 : ℚ) else 50)
        (vetsQuery cr vets) ⟨existing, [], false⟩).aborted = true
    · rw [if_pos ha1, if_pos ha1]
      exact ⟨k1, List.nodup_nil, by simp⟩
    · rw [if_neg ha1]
      by_cases hbrk : (!(notifyPass cr (if expanded then (100 : ℚ) else 50)
          (vetsQuery cr vets) ⟨existing, [], false⟩).notified.isEmpty
            && !expanded) = true
      · rw [if_pos hbrk]
        rw [if_neg ha1]
        refine ⟨k1, k2, ?_⟩
        intro w hw
        rcases k4 w hw with hfalse | hq
        · cases hfalse
        · exact hq
      · rw [if_neg hbrk]
        obtain ⟨m1, m2, m3, m4⟩ := notifyPass_nodup cr
          (if expanded then (200 : ℚ) else 100) (vetsQuery cr vets)
          (notifyPass cr (if expanded then (100 : ℚ) else 50)
            (vetsQuery cr vets) ⟨existing, [], false⟩) k1 k2 k3
        by_cases ha2 : (notifyPass cr (if expanded then (200 : ℚ) else 100)
            (vetsQuery cr vets)
            (notifyPass cr (if expanded then (100 : ℚ) else 50)
              (vetsQuery cr vets) ⟨existing, [], false⟩)).aborted = true
        · rw [if_pos ha2]
          exact ⟨m1, List.nodup_nil, by simp⟩
        · rw [if_neg ha2]
          refine ⟨m1, m2, ?_⟩
          intro w hw
          rcases m4 w hw with hs1 | hq
          · rcases k4 w hs1 with hfalse | hq2
            · cases hfalse
            · exact hq2
          · exact hq

/-- Marking a notification responded never changes the key pairs. -/
lemma markFirstResponded_pairs (vet rid : Nat) :
    ∀ l, (markFirstResponded vet rid l).map pairOf = l.map pairOf := by
  intro l
  induction l with
  | nil => rfl
  | cons nr rest ih =>
    rw [markFirstResponded]
    split
    · simp [pairOf]
    · simp only [List.map_cons, ih]

/-- The queryset excludes every veterinarian already notified. -/
lemma vetsQuery_ids_not_notified (cr : ConsultationRequest) (vets : List Vet) :
    ∀ v ∈ (vetsQuery cr vets).map Vet.userId, v ∉ notifiedIds cr := by
  intro v hv
  obtain ⟨w, hw, heq⟩ := List.mem_map.mp hv
  have hfil := (List.mem_filter.mp hw).2
  have hcont : (!(notifiedIds cr).contains w.userId) = true := by
    simp only [Bool.and_eq_true] at hfil
    exact hfil.2
  rw [← heq]
  intro hmem
  have hc2 : (notifiedIds cr).contains w.userId = true := List.elem_iff.mpr hmem
  rw [hc2] at hcont
  cases hcont

/-- Setting the notified list from an id list round-trips. -/
lemma notifiedIds_set_uuidStr (cr : ConsultationRequest) (ids : List Nat) :
    notifiedIds { cr with requested_veterinarians := ids.map PyVal.uuidStr } =
      ids := by
  have e : notifiedIds { cr with
      requested_veterinarians := ids.map PyVal.uuidStr } =
      (ids.map PyVal.uuidStr).map pyParseUUID := rfl
  rw [e, parse_uuidStr_map]

/-- Appending stringified ids extends the parsed notified ids. -/
lemma notifiedIds_extend (cr : ConsultationRequest) (ids : List Nat) :
    notifiedIds { cr with requested_veterinarians :=
      cr.requested_veterinarians ++ ids.map PyVal.uuidStr } =
    notifiedIds cr ++ ids := by
  have e : notifiedIds { cr with requested_veterinarians :=
      cr.requested_veterinarians ++ ids.map PyVal.uuidStr } =
      (cr.requested_veterinarians ++ ids.map PyVal.uuidStr).map pyParseUUID := rfl
  rw [e, List.map_append, parse_uuidStr_map]
  rfl

/-- A decline never changes the notified ids. -/
lemma notifiedIds_decline (vet : Nat) (cr : ConsultationRequest) :
    notifiedIds (decline_by_veterinarian vet cr).2 = notifiedIds cr := by
  obtain ⟨_, _, e3⟩ := decline_by_fields vet cr
  simp [notifiedIds, e3]

/-- Manual expiry preserves the no-duplication invariant. -/
lemma expire_preserves_nodup (st : State) (b : Bool) (h : NoDupInv st) :
    NoDupInv (expireRequest st b) := by
  unfold expireRequest
  split_ifs <;> simpa [NoDupInv, notifiedIds] using h

/-- Request creation establishes the no-duplication invariant. -/
lemma create_nodup (sr : SymptomReport) (reqId now : Nat) (vets : List Vet)
    (p0 : List Patient) :
    NoDupInv (createConsultationRequest sr reqId now vets p0) := by
  obtain ⟨k1, k2, _⟩ := notifyNearby_nodup (initialRequest sr reqId now) [] vets
    false sr.hasLocation (by simp)
  unfold createConsultationRequest NoDupInv
  dsimp only
  constructor
  · rw [notifiedIds_set_uuidStr]
    exact k2
  · exact k1

/-- Every responder call — escalation included — preserves the
no-duplication invariant. -/
lemma respond_preserves_nodup (st : State) (vet : Nat) (action : String)
    (now : Nat) (vets : List Vet) (hasLoc : Bool) (h : NoDupInv st) :
    NoDupInv (respond st vet action now vets hasLoc).state := by
  by_cases h1 : st.request.status = "pending"
  · by_cases h2 : is_expired now st.request
    · simpa [respond, h1, h2, NoDupInv, notifiedIds] using h
    · by_cases h3 : action = "accept" ∨ action = "decline" ∨ action = "request_info"
      · by_cases h4 : hasResponse st.responses vet st.request.id
        · simpa [respond, h1, h2, h3, h4, NoDupInv, notifiedIds,
            markFirstResponded_pairs] using h
        · by_cases ha : action = "accept"
          · simpa [respond, h1, h2, h3, h4, ha, accept_by_veterinarian,
              acceptCheck, acceptWrite, NoDupInv, notifiedIds,
              markFirstResponded_pairs] using h
          · by_cases hd : action = "decline"
            · subst hd
              have h2f : is_expired now st.request = false := by simpa using h2
              have h4f : hasResponse st.responses vet st.request.id = false := by
                simpa using h4
              rw [respond_decline_eq st vet now vets hasLoc h1 h2f h4f]
              dsimp only
              have hmk : (markFirstResponded vet st.request.id
                  st.notifications).map pairOf = st.notifications.map pairOf :=
                markFirstResponded_pairs vet st.request.id st.notifications
              have hmknd : ((markFirstResponded vet st.request.id
                  st.notifications).map pairOf).Nodup := by
                rw [hmk]
                exact h.2
              obtain ⟨n1, n2, n3⟩ := notifyNearby_nodup
                (decline_by_veterinarian vet st.request).2
                (markFirstResponded vet st.request.id st.notifications)
                vets true hasLoc hmknd
              split_ifs with hcond hempty
              · exact ⟨by rw [notifiedIds_decline]; exact h.1, n1⟩
              · refine ⟨?_, n1⟩
                rw [notifiedIds_extend, notifiedIds_decline]
                rw [List.nodup_append]
                refine ⟨h.1, n2, ?_⟩
                intro a ha1 ha2
                have hq := n3 a ha2
                have := vetsQuery_ids_not_notified
                  (decline_by_veterinarian vet st.request).2 vets a hq
                rw [notifiedIds_decline] at this
                exact this ha1
              · exact ⟨by rw [notifiedIds_decline]; exact h.1, hmknd⟩
            · have hi : action = "request_info" := by tauto
              simpa [respond, h1, h2, h3, h4, ha, hd, hi, NoDupInv, notifiedIds,
                markFirstResponded_pairs] using h
      · simpa [respond, h1, h2, h3, NoDupInv, notifiedIds] using h
  · simpa [respond, h1, NoDupInv, notifiedIds] using h

/-- Claim C8: on every reachable state — in particular after any
escalation — the notified list holds no duplicate veterinarian ids and
at most one notification row exists per `(veterinarian, request)` pair:
escalation excludes already-notified veterinarians from its queryset and
the unique-together constraint stops any duplicate row. -/
theorem escalation_no_duplicate_ids (sr : SymptomReport) (reqId now : Nat)
    (vets : List Vet) (p0 : List Patient) (events : List Event) :
    NoDupInv (runEvents (createConsultationRequest sr reqId now vets p0)
      events) :=
  runEvents_preserves (P := NoDupInv)
    (fun st e h => by
      cases e with
      | respondEv vet action now2 vets2 hasLoc =>
        exact respond_preserves_nodup st vet action now2 vets2 hasLoc h
      | expireEv b => exact expire_preserves_nodup st b h)
    events _ (create_nodup sr reqId now vets p0)

/-- Witness for the automatic-escalation theorem: an emergency report
with two eligible veterinarians between 50km and 100km yields a pending
request whose notified set is exactly those two ids and whose declined
set is empty. -/
theorem create_escalates_witness :
    notifiedIds (createConsultationRequest exEmergencyReport 0 0
      [exVetA, exVetB] []).request = [1, 2] ∧
    (createConsultationRequest exEmergencyReport 0 0 [exVetA, exVetB]
      []).request.status = "pending" ∧
    (createConsultationRequest exEmergencyReport 0 0 [exVetA, exVetB]
      []).request.declined_by = [] := by
  have h := create_escalates_when_none_within_50 exEmergencyReport 0 0
    [exVetA, exVetB] [] (by decide) (by decide) (by decide)
  exact ⟨h.2.2.1.trans (by decide), h.1, h.2.1⟩

end Eyntra
